import Mathlib

/-!
# Verification of the VAE training driver (`main.py`)

A shallow embedding of the top-level training script of the
pytorch-VAE-models repository.  The script parses CLI arguments, creates a
results directory, dispatches on the dataset name, builds a model, an Adam
optimizer (lr = 1e-3) and an exponential learning-rate scheduler
(gamma = 0.98), runs a nested epoch/batch training loop with per-epoch
evaluation and prior sampling, saves a checkpoint, and finally renders a
latent-space traversal grid.

The embedding models the script as a sequential state machine over a state
`St` carrying the current learning rate, the list of observable events
(framework calls and file writes) emitted so far, and an error flag: a
raised Python exception freezes the state, mirroring the crash of the
script.  Numeric values (learning rates, latent coordinates) are modelled
as rationals.
-/

namespace PyVAE

/-- Modelled from the spec: the CLI parser lives in `cli.py`, which only has
its consumer `main.py` available; the spec says "CLI flags control dataset
choice, model variant, latent dimension, β weight, batch size, epoch count,
learning-rate schedule, and output toggles (TensorBoard vs. custom plot)".
The fields are exactly the `args.*` attributes `main.py` reads. -/
structure Args where
  data : String
  model_name : String
  z_dim : Nat
  beta : ℚ
  batch_size : Nat
  epochs : Nat
  tensorboard : Bool
  seed : Nat
  no_cuda : Bool
  log_interval : Nat
  deriving DecidableEq, Repr

/-- The two supported datasets (`mnist.py` / `dsprites.py` loaders). -/
inductive Dataset where
  | mnist
  | dsprites
  deriving DecidableEq, Repr

/-- `main.py` line 32:
`dirName = f'results_{args.data}_{args.model_name}_zdim-{args.z_dim}_beta-{args.beta}'`. -/
def dirName (a : Args) : String :=
  "results_" ++ a.data ++ "_" ++ a.model_name ++ "_zdim-" ++ toString a.z_dim
    ++ "_beta-" ++ toString a.beta

/-- Python's `str.lower()` on the ASCII dataset names the script deals
with: lower-case every character. -/
def pyLower (s : String) : String := ⟨s.data.map Char.toLower⟩

/-- `main.py` lines 42-56: module-level dataset dispatch on
`args.data.lower()`; an unknown name raises
`Exception('Dataset not found. Try: MNIST, dSprites')`.  Returns the chosen
dataset together with `img_size` (28 for MNIST, 64 for dSprites). -/
def datasetDispatch (a : Args) : Except String (Dataset × Nat) :=
  if pyLower a.data = "mnist" then .ok (.mnist, 28)
  else if pyLower a.data = "dsprites" then .ok (.dsprites, 64)
  else .error "Dataset not found. Try: MNIST, dSprites"

/-- Observable events of a run: framework calls (model forward, loss +
backprop, optimizer step, scheduler step, latent sampling) and file-system
effects (directory creation, image and checkpoint writes).  `saveImage`
carries the target path and the `nrow` grid parameter of
`torchvision.utils.save_image`; `schedStep` carries the learning rate in
force after the step; `sampleLatents` carries the number of latent vectors
decoded and the latent dimension. -/
inductive Event where
  | mkdir (dir : String)
  | modelInit (zdim imgSize : Nat)
  | writerInit
  | lossPlotInit (dir : String)
  | fwd (epoch batch : Nat)
  | lossBwd (epoch batch : Nat)
  | optStep (epoch batch : Nat)
  | schedStep (epoch : Nat) (lr : ℚ)
  | testFwd (epoch batch : Nat)
  | sampleLatents (count zdim : Nat)
  | saveImage (path : String) (nrow : Nat)
  | saveCheckpoint (path : String) (keys : List String)
  deriving DecidableEq, Repr

/-- Run state: current optimizer learning rate, events emitted so far, and
the pending Python exception (if any). -/
structure St where
  lr : ℚ
  events : List Event
  error : Option String
  deriving DecidableEq, Repr

/-- Emit an event; a raised exception freezes the run. -/
def emit (ev : Event) (s : St) : St :=
  if s.error = none then { s with events := s.events ++ [ev] } else s

/-- Raise a Python exception (keeps the first one). -/
def fail (msg : String) (s : St) : St :=
  if s.error = none then { s with error := some msg } else s

/-- Number of batches a `DataLoader` over `n` datapoints with the given
batch size yields (default `drop_last=False`): `⌈n / bs⌉`. -/
def numBatches (n bs : Nat) : Nat := (n + bs - 1) / bs

/-- Size of the first batch a `DataLoader` over `n` datapoints yields. -/
def firstBatchSize (n bs : Nat) : Nat := min bs n

/-- `main.py` line 66: `optim.Adam(model.parameters(), lr=1e-3)` — the
initial learning rate is the literal `1e-3`. -/
def initial_lr : ℚ := 1 / 1000

/-- `main.py` line 71: `optim.lr_scheduler.ExponentialLR(optimizer, gamma=0.98)`
— the per-epoch decay factor is the literal `0.98`. -/
def gamma : ℚ := 98 / 100

/-- Learning rate after `n` completed epochs: each call to
`scheduler.step()` multiplies the rate by `gamma`. -/
def lrAfter : Nat → ℚ
  | 0 => initial_lr
  | n + 1 => lrAfter n * gamma

/-- Path of the per-epoch reconstruction image
(`f'{dirName}/reconstruction_{str(epoch)}.png'`, `main.py` line 143). -/
def reconPath (a : Args) (epoch : Nat) : String :=
  dirName a ++ "/reconstruction_" ++ toString epoch ++ ".png"

/-- Path of the per-epoch prior-sample image
(`f'{dirName}/sample_{str(epoch)}.png'`, `main.py` line 169). -/
def samplePath (a : Args) (epoch : Nat) : String :=
  dirName a ++ "/sample_" ++ toString epoch ++ ".png"

/-- Path of the final latent-space traversal image (`main.py` line 193). -/
def latentPath (a : Args) : String :=
  dirName a ++ "/sample_latent_space.png"

/-- Checkpoint path: `f"{dirName}/{args.model_name}_model.pth"`
(`main.py` line 177). -/
def model_out_path (a : Args) : String :=
  dirName a ++ "/" ++ a.model_name ++ "_model.pth"

/-- The keys of the `checkpoint` dict (`main.py` lines 174-176). -/
def checkpointKeys : List String := ["model", "state_dict", "optimizer"]

/-- One training batch (`main.py` lines 94-106): forward pass through the
model, loss computation plus gradient backprop, optimizer step.  The
per-batch plotting/printing (lines 108-119) has no file or model effect. -/
def trainBatch (epoch b : Nat) (s : St) : St :=
  emit (.optStep epoch b) (emit (.lossBwd epoch b) (emit (.fwd epoch b) s))

/-- `train(epoch)` (`main.py` lines 91-125): iterate over all training
batches in order, then `scheduler.step()` updates the learning rate. -/
def train (epoch nTrainBatches : Nat) (s : St) : St :=
  let s := (List.range nTrainBatches).foldl (fun s b => trainBatch epoch b s) s
  let s := emit (.schedStep epoch (s.lr * gamma)) s
  if s.error = none then { s with lr := s.lr * gamma } else s

/-- One evaluation batch of `test(epoch)` (`main.py` lines 132-143):
forward pass; on the first batch (`i == 0`) the reconstruction is reshaped
by `recon_batch.view(args.batch_size, 1, img_size, img_size)` — a shape
mismatch raises — and the comparison grid is written with
`nrow = n = min(data.size(0), 8)`. -/
def testBatch (a : Args) (imgSize nTest epoch i : Nat) (s : St) : St :=
  let s := emit (.testFwd epoch i) s
  if i = 0 then
    let n0 := firstBatchSize nTest a.batch_size
    if n0 * (imgSize * imgSize) = a.batch_size * (1 * (imgSize * imgSize)) then
      emit (.saveImage (reconPath a epoch) (min n0 8)) s
    else
      fail "shape is invalid for input" s
  else s

/-- `test(epoch)` (`main.py` lines 128-154): iterate over all test batches. -/
def test (a : Args) (imgSize nTest epoch : Nat) (s : St) : St :=
  (List.range (numBatches nTest a.batch_size)).foldl
    (fun s i => testBatch a imgSize nTest epoch i s) s

/-- Body of the epoch loop (`main.py` lines 157-169): `train(epoch)`, then
`test(epoch)`, then 64 standard-normal latent vectors are decoded and the
resulting grid is saved to `sample_{epoch}.png` (default `nrow = 8`). -/
def epochBody (a : Args) (imgSize nTrain nTest epoch : Nat) (s : St) : St :=
  let s := train epoch (numBatches nTrain a.batch_size) s
  let s := test a imgSize nTest epoch s
  let s := emit (.sampleLatents 64 a.z_dim) s
  emit (.saveImage (samplePath a epoch) 8) s

/-- Linearly spaced grid: `np.linspace(lo, hi, n)` at index `i`. -/
def linspace (lo hi : ℚ) (n i : Nat) : ℚ :=
  lo + (hi - lo) * i / ((n : ℚ) - 1)

/-- `nums = 11` (`main.py` line 184). -/
def nums : Nat := 11

/-- `x_range = np.linspace(-3, 3, nums)` (`main.py` line 185). -/
def x_range (i : Nat) : ℚ := linspace (-3) 3 nums i

/-- One assignment `z[dim, :, dim] = x_range` on the 3-d array
`z : (z_dim, nums, z_dim)` (`main.py` line 188). -/
def assignDim (z : Nat → Nat → Nat → ℚ) (dim : Nat) : Nat → Nat → Nat → ℚ :=
  fun d i j => if d = dim ∧ j = dim then x_range i else z d i j

/-- The traversal tensor `z` after
`z = np.zeros((z_dim, nums, z_dim))` followed by the loop
`for dim in range(z_dim): z[dim, :, dim] = x_range`
(`main.py` lines 186-188). -/
def zTensor (zdim : Nat) : Nat → Nat → Nat → ℚ :=
  (List.range zdim).foldl assignDim (fun _ _ _ => 0)

/-- The flattened traversal batch after
`z.view(z_dim * nums, z_dim)` (`main.py` line 190): row `k` of the
flattened matrix is row `(k / nums, k % nums)` of the 3-d tensor. -/
def zFlat (zdim k j : Nat) : ℚ := zTensor zdim (k / nums) (k % nums) j

/-- The whole script (`main.py`): mkdir of the results directory, dataset
dispatch, model/optimizer/scheduler construction, TensorBoard-vs-plot
toggle, the epoch loop, the checkpoint save, and the latent-space
traversal (decoding `z_dim * nums` latent vectors, grid `nrow = nums`).
`nTrain` and `nTest` are the sizes of the training and test sets the
loaders expose. -/
def runMain (a : Args) (nTrain nTest : Nat) : St :=
  let s : St := { lr := initial_lr, events := [], error := none }
  let s := emit (.mkdir (dirName a)) s
  match datasetDispatch a with
  | .error msg => fail msg s
  | .ok (_, imgSize) =>
    let s := emit (.modelInit a.z_dim imgSize) s
    let s := if a.tensorboard then emit .writerInit s
             else emit (.lossPlotInit (dirName a)) s
    let s := (List.range a.epochs).foldl
      (fun s i => epochBody a imgSize nTrain nTest (i + 1) s) s
    let s := emit (.saveCheckpoint (model_out_path a) checkpointKeys) s
    let s := emit (.sampleLatents (a.z_dim * nums) a.z_dim) s
    emit (.saveImage (latentPath a) nums) s

/-! ## Closed-form traces

The following definitions give the event trace of the script in closed
form; the characterization lemmas below prove that the state machine
`runMain` produces exactly these traces. -/

/-- Events of one training batch. -/
def trainBatchEvs (e b : Nat) : List Event :=
  [.fwd e b, .lossBwd e b, .optStep e b]

/-- Trace of `train(e)` over `nB` batches, where `v` is the learning rate
in force after the trailing `scheduler.step()`. -/
def trainTrace (v : ℚ) (e nB : Nat) : List Event :=
  (List.range nB).flatMap (trainBatchEvs e) ++ [.schedStep e v]

/-- Trace of `test(e)` over `nB` batches when the first-batch reshape
succeeds: the first batch also saves the reconstruction grid. -/
def testTrace (a : Args) (nTest e nB : Nat) : List Event :=
  match nB with
  | 0 => []
  | m + 1 =>
    .testFwd e 0 ::
      .saveImage (reconPath a e) (min (firstBatchSize nTest a.batch_size) 8) ::
        (List.range m).map (fun j => .testFwd e (j + 1))

/-- Trace of one full epoch body. -/
def epochTrace (a : Args) (nTrain nTest e : Nat) : List Event :=
  trainTrace (lrAfter e) e (numBatches nTrain a.batch_size)
    ++ testTrace a nTest e (numBatches nTest a.batch_size)
    ++ [.sampleLatents 64 a.z_dim, .saveImage (samplePath a e) 8]

/-- Events emitted before the epoch loop starts. -/
def preludeTrace (a : Args) (imgSize : Nat) : List Event :=
  [.mkdir (dirName a), .modelInit a.z_dim imgSize,
   if a.tensorboard then .writerInit else .lossPlotInit (dirName a)]

/-- Events emitted after the epoch loop: checkpoint save and latent-space
traversal. -/
def finaleTrace (a : Args) : List Event :=
  [.saveCheckpoint (model_out_path a) checkpointKeys,
   .sampleLatents (a.z_dim * nums) a.z_dim,
   .saveImage (latentPath a) nums]

/-- Trace of a complete, error-free run. -/
def successTrace (a : Args) (imgSize nTrain nTest : Nat) : List Event :=
  preludeTrace a imgSize
    ++ (List.range a.epochs).flatMap (fun i => epochTrace a nTrain nTest (i + 1))
    ++ finaleTrace a

/-! ## Characterization of the state machine -/

lemma emit_none {s : St} (ev : Event) (h : s.error = none) :
    emit ev s = ⟨s.lr, s.events ++ [ev], none⟩ := by
  simp [emit, h]

lemma emit_frozen {s : St} (ev : Event) (h : ¬ s.error = none) :
    emit ev s = s := by
  simp [emit, h]

lemma fail_frozen {s : St} (msg : String) (h : ¬ s.error = none) :
    fail msg s = s := by
  simp [fail, h]

lemma emit_mk (ev : Event) (l : ℚ) (evs : List Event) :
    emit ev ⟨l, evs, none⟩ = ⟨l, evs ++ [ev], none⟩ := by
  simp [emit]

lemma trainBatch_none {s : St} (e b : Nat) (h : s.error = none) :
    trainBatch e b s = ⟨s.lr, s.events ++ trainBatchEvs e b, none⟩ := by
  simp [trainBatch, emit, h, trainBatchEvs]

lemma trainBatch_frozen {s : St} (e b : Nat) (h : ¬ s.error = none) :
    trainBatch e b s = s := by
  simp [trainBatch, emit, h]

lemma foldl_trainBatch {s : St} (e : Nat) (n : Nat) (h : s.error = none) :
    (List.range n).foldl (fun s b => trainBatch e b s) s
      = ⟨s.lr, s.events ++ (List.range n).flatMap (trainBatchEvs e), none⟩ := by
  induction n with
  | zero =>
    obtain ⟨lr, evs, err⟩ := s
    subst h
    simp
  | succ m ih =>
    rw [List.range_succ, List.foldl_append, ih]
    simp [trainBatch_none, trainBatchEvs]

lemma train_none {s : St} (e nB : Nat) (h : s.error = none) :
    train e nB s
      = ⟨s.lr * gamma, s.events ++ trainTrace (s.lr * gamma) e nB, none⟩ := by
  unfold train
  rw [foldl_trainBatch e nB h]
  simp [emit, trainTrace]

lemma train_frozen {s : St} (e nB : Nat) (h : ¬ s.error = none) :
    train e nB s = s := by
  unfold train
  have hfold : (List.range nB).foldl (fun s b => trainBatch e b s) s = s := by
    induction nB with
    | zero => simp
    | succ m ih => rw [List.range_succ, List.foldl_append, ih]; simp [trainBatch_frozen, h]
  rw [hfold]
  simp [emit_frozen _ h, h]

/-- Shape condition of the first-batch reshape in `test`: either there is
no test batch at all, or `recon_batch.view(args.batch_size, 1, img_size,
img_size)` succeeds on the first batch. -/
def viewOk (a : Args) (imgSize nTest : Nat) : Prop :=
  numBatches nTest a.batch_size = 0 ∨
    firstBatchSize nTest a.batch_size * (imgSize * imgSize)
      = a.batch_size * (1 * (imgSize * imgSize))

instance (a : Args) (imgSize nTest : Nat) : Decidable (viewOk a imgSize nTest) := by
  unfold viewOk
  infer_instance

lemma testBatch_frozen {s : St} {a : Args} (imgSize nTest e i : Nat)
    (h : ¬ s.error = none) : testBatch a imgSize nTest e i s = s := by
  simp [testBatch, emit, fail, h]

lemma testBatch_succ_none {s : St} {a : Args} (imgSize nTest e j : Nat)
    (h : s.error = none) :
    testBatch a imgSize nTest e (j + 1) s
      = ⟨s.lr, s.events ++ [.testFwd e (j + 1)], none⟩ := by
  simp [testBatch, emit, h]

lemma foldl_testBatch_tail {a : Args} (imgSize nTest e : Nat) (m : Nat)
    {s : St} (h : s.error = none) :
    ((List.range m).map Nat.succ).foldl
        (fun s i => testBatch a imgSize nTest e i s) s
      = ⟨s.lr, s.events ++ (List.range m).map (fun j => .testFwd e (j + 1)),
          none⟩ := by
  induction m with
  | zero =>
    obtain ⟨lr, evs, err⟩ := s
    subst h
    simp
  | succ k ih =>
    rw [List.range_succ, List.map_append, List.foldl_append, ih]
    simp [testBatch_succ_none, Nat.succ_eq_add_one]

lemma test_none_ok {a : Args} {imgSize nTest e : Nat} {s : St}
    (hok : viewOk a imgSize nTest) (h : s.error = none) :
    test a imgSize nTest e s
      = ⟨s.lr,
          s.events ++ testTrace a nTest e (numBatches nTest a.batch_size),
          none⟩ := by
  unfold test
  rcases hnB : numBatches nTest a.batch_size with _ | m
  · obtain ⟨lr, evs, err⟩ := s
    subst h
    simp [testTrace]
  · have hview : firstBatchSize nTest a.batch_size * (imgSize * imgSize)
        = a.batch_size * (1 * (imgSize * imgSize)) := by
      rcases hok with h0 | hv
      · rw [hnB] at h0; exact absurd h0 (Nat.succ_ne_zero m)
      · exact hv
    rw [List.range_succ_eq_map, List.foldl_cons]
    have hfirst : testBatch a imgSize nTest e 0 s
        = ⟨s.lr,
            s.events ++ [.testFwd e 0,
              .saveImage (reconPath a e)
                (min (firstBatchSize nTest a.batch_size) 8)], none⟩ := by
      simp [testBatch, emit, h, hview]
    rw [hfirst, foldl_testBatch_tail imgSize nTest e m (by simp)]
    simp [testTrace]

lemma test_none_fail {a : Args} {imgSize nTest e : Nat} {s : St}
    (hne : 0 < numBatches nTest a.batch_size)
    (hbad : ¬ viewOk a imgSize nTest) (h : s.error = none) :
    test a imgSize nTest e s
      = ⟨s.lr, s.events ++ [.testFwd e 0], some "shape is invalid for input"⟩ := by
  unfold test
  rcases hnB : numBatches nTest a.batch_size with _ | m
  · rw [hnB] at hne; exact absurd hne (lt_irrefl 0)
  · have hview : ¬ firstBatchSize nTest a.batch_size * (imgSize * imgSize)
        = a.batch_size * (1 * (imgSize * imgSize)) := by
      intro hv
      exact hbad (Or.inr hv)
    rw [List.range_succ_eq_map, List.foldl_cons]
    have hfirst : testBatch a imgSize nTest e 0 s
        = ⟨s.lr, s.events ++ [.testFwd e 0], some "shape is invalid for input"⟩ := by
      have h1 : ¬ firstBatchSize nTest a.batch_size = a.batch_size :=
        fun hfb => hview (by rw [hfb, one_mul])
      have h2 : ¬ imgSize = 0 := fun him => hview (by simp [him])
      simp [testBatch, emit, fail, h, h1, h2]
    rw [hfirst]
    have hfrozen : ∀ (l : List Nat) (t : St), ¬ t.error = none →
        l.foldl (fun s i => testBatch a imgSize nTest e i s) t = t := by
      intro l
      induction l with
      | nil => intro t _; simp
      | cons x xs ih =>
        intro t ht
        rw [List.foldl_cons, testBatch_frozen _ _ _ _ ht]
        exact ih t ht
    exact hfrozen _ _ (by simp)

lemma test_frozen {a : Args} (imgSize nTest e : Nat) {s : St}
    (h : ¬ s.error = none) : test a imgSize nTest e s = s := by
  unfold test
  induction numBatches nTest a.batch_size with
  | zero => simp
  | succ m ih =>
    rw [List.range_succ, List.foldl_append, ih]
    simp [testBatch_frozen _ _ _ _ h]

lemma epochBody_none_ok {a : Args} {imgSize nTrain nTest e : Nat} {s : St}
    (hok : viewOk a imgSize nTest) (h : s.error = none) :
    epochBody a imgSize nTrain nTest e s
      = ⟨s.lr * gamma,
          s.events
            ++ (trainTrace (s.lr * gamma) e (numBatches nTrain a.batch_size)
              ++ testTrace a nTest e (numBatches nTest a.batch_size)
              ++ [.sampleLatents 64 a.z_dim, .saveImage (samplePath a e) 8]),
          none⟩ := by
  unfold epochBody
  rw [train_none _ _ h]
  dsimp only
  rw [test_none_ok hok (by simp)]
  simp [emit]

lemma epochBody_none_fail {a : Args} {imgSize nTrain nTest e : Nat} {s : St}
    (hne : 0 < numBatches nTest a.batch_size)
    (hbad : ¬ viewOk a imgSize nTest) (h : s.error = none) :
    epochBody a imgSize nTrain nTest e s
      = ⟨s.lr * gamma,
          s.events
            ++ (trainTrace (s.lr * gamma) e (numBatches nTrain a.batch_size)
              ++ [.testFwd e 0]),
          some "shape is invalid for input"⟩ := by
  unfold epochBody
  rw [train_none _ _ h]
  dsimp only
  rw [test_none_fail hne hbad (by simp)]
  simp [emit]

lemma epochBody_frozen {a : Args} (imgSize nTrain nTest e : Nat) {s : St}
    (h : ¬ s.error = none) : epochBody a imgSize nTrain nTest e s = s := by
  unfold epochBody
  rw [train_frozen _ _ h]
  dsimp only
  rw [test_frozen _ _ _ h]
  simp [emit_frozen _ h]

lemma foldl_epochBody_frozen {a : Args} (imgSize nTrain nTest : Nat)
    (l : List Nat) {s : St} (h : ¬ s.error = none) :
    l.foldl (fun s i => epochBody a imgSize nTrain nTest (i + 1) s) s = s := by
  induction l with
  | nil => simp
  | cons x xs ih =>
    rw [List.foldl_cons, epochBody_frozen _ _ _ _ h]
    exact ih

lemma runMain_badData (a : Args) (nTrain nTest : Nat) {msg : String}
    (hd : datasetDispatch a = .error msg) :
    runMain a nTrain nTest = ⟨initial_lr, [.mkdir (dirName a)], some msg⟩ := by
  unfold runMain
  rw [hd]
  simp [emit, fail]

lemma foldl_epochBody_ok {a : Args} {imgSize nTrain nTest : Nat}
    (pre : List Event) (n : Nat) (hok : n = 0 ∨ viewOk a imgSize nTest) :
    (List.range n).foldl (fun s i => epochBody a imgSize nTrain nTest (i + 1) s)
        ⟨initial_lr, pre, none⟩
      = ⟨lrAfter n,
          pre ++ (List.range n).flatMap (fun i => epochTrace a nTrain nTest (i + 1)),
          none⟩ := by
  induction n with
  | zero => simp [lrAfter]
  | succ m ih =>
    have hv : viewOk a imgSize nTest := by
      rcases hok with h0 | hv
      · exact absurd h0 (Nat.succ_ne_zero m)
      · exact hv
    rw [List.range_succ, List.foldl_append, ih (Or.inr hv), List.foldl_cons]
    rw [epochBody_none_ok hv (by simp)]
    simp [lrAfter, epochTrace, List.flatMap_append]

/-- A run whose dataset is recognized and whose test loader satisfies the
reshape condition completes without an exception and emits exactly
`successTrace`, finishing with learning rate `lrAfter epochs`. -/
theorem runMain_ok {a : Args} {ds : Dataset} {imgSize : Nat}
    (nTrain nTest : Nat) (hd : datasetDispatch a = .ok (ds, imgSize))
    (hok : a.epochs = 0 ∨ viewOk a imgSize nTest) :
    runMain a nTrain nTest
      = ⟨lrAfter a.epochs, successTrace a imgSize nTrain nTest, none⟩ := by
  unfold runMain
  rw [hd]
  dsimp only
  cases htb : a.tensorboard
  all_goals
    simp only [htb, Bool.false_eq_true, ite_false, ite_true, emit_mk,
      List.nil_append, List.cons_append, List.append_nil]
    rw [foldl_epochBody_ok _ _ hok]
    simp [emit_mk, successTrace, preludeTrace, finaleTrace, htb]

/-- A run with a recognized dataset, at least one epoch, a nonempty test
loader, and a first test batch that fails the reshape crashes during the
first epoch's evaluation: it emits the prelude, the full first-epoch
training trace, and the single first test forward pass, then raises. -/
theorem runMain_viewFail {a : Args} {ds : Dataset} {imgSize : Nat}
    (nTrain nTest : Nat) (hd : datasetDispatch a = .ok (ds, imgSize))
    (hne : 0 < numBatches nTest a.batch_size)
    (hbad : ¬ viewOk a imgSize nTest) (hep : 0 < a.epochs) :
    runMain a nTrain nTest
      = ⟨lrAfter 1,
          preludeTrace a imgSize
            ++ (trainTrace (lrAfter 1) 1 (numBatches nTrain a.batch_size)
              ++ [.testFwd 1 0]),
          some "shape is invalid for input"⟩ := by
  obtain ⟨k, hk⟩ : ∃ k, a.epochs = k + 1 :=
    ⟨a.epochs - 1, (Nat.succ_pred_eq_of_pos hep).symm⟩
  unfold runMain
  rw [hd]
  dsimp only
  rw [hk, List.range_succ_eq_map, List.foldl_cons]
  cases htb : a.tensorboard
  all_goals
    simp only [htb, Bool.false_eq_true, ite_false, ite_true, emit_mk,
      List.nil_append, List.cons_append, List.append_nil]
    rw [epochBody_none_fail hne hbad (by simp)]
    rw [foldl_epochBody_frozen _ _ _ _ (by simp)]
    simp [emit, preludeTrace, lrAfter, htb]

/-! ## Arithmetic helpers about loader shapes -/

lemma numBatches_zero (bs : Nat) : numBatches 0 bs = 0 := by
  unfold numBatches
  rcases bs with _ | k
  · rfl
  · exact Nat.div_eq_of_lt (by omega)

lemma numBatches_pos {n bs : Nat} (hbs : 0 < bs) (hn : 0 < n) :
    0 < numBatches n bs := by
  unfold numBatches
  exact Nat.div_pos (by omega) hbs

lemma viewOk_of_le {a : Args} {imgSize nTest : Nat}
    (hts : a.batch_size ≤ nTest) : viewOk a imgSize nTest :=
  Or.inr (by rw [firstBatchSize, Nat.min_eq_left hts, one_mul])

lemma viewOk_of_nTest_zero {a : Args} {imgSize : Nat} :
    viewOk a imgSize 0 := Or.inl (numBatches_zero _)

lemma not_viewOk_of_small {a : Args} {imgSize nTest : Nat}
    (himg : 0 < imgSize) (h1 : 0 < nTest) (h2 : nTest < a.batch_size) :
    ¬ viewOk a imgSize nTest := by
  have hbs : 0 < a.batch_size := lt_trans h1 h2
  intro hv
  rcases hv with h0 | heq
  · exact absurd h0 (Nat.pos_iff_ne_zero.mp (numBatches_pos hbs h1))
  · rw [firstBatchSize, Nat.min_eq_right (le_of_lt h2), one_mul] at heq
    have : nTest = a.batch_size :=
      Nat.eq_of_mul_eq_mul_right (Nat.mul_pos himg himg) heq
    omega

/-- Exhaustive description of a run: the bad-dataset crash, a full
successful run, or the crashed-reshape run. -/
theorem runMain_cases (a : Args) (nTrain nTest : Nat) :
    runMain a nTrain nTest
      = ⟨initial_lr, [.mkdir (dirName a)],
          some "Dataset not found. Try: MNIST, dSprites"⟩
    ∨ (∃ imgSize, runMain a nTrain nTest
        = ⟨lrAfter a.epochs, successTrace a imgSize nTrain nTest, none⟩)
    ∨ (∃ imgSize, runMain a nTrain nTest
        = ⟨lrAfter 1,
            preludeTrace a imgSize
              ++ (trainTrace (lrAfter 1) 1 (numBatches nTrain a.batch_size)
                ++ [.testFwd 1 0]),
            some "shape is invalid for input"⟩) := by
  rcases hdd : datasetDispatch a with msg | ⟨ds, imgSize⟩
  · left
    have hmsg : msg = "Dataset not found. Try: MNIST, dSprites" := by
      unfold datasetDispatch at hdd
      split_ifs at hdd
      all_goals simp_all
    rw [runMain_badData a nTrain nTest hdd, hmsg]
  · by_cases hok : a.epochs = 0 ∨ viewOk a imgSize nTest
    · right; left
      exact ⟨imgSize, by rw [runMain_ok nTrain nTest hdd hok]⟩
    · push_neg at hok
      obtain ⟨hep, hbad⟩ := hok
      have hne : 0 < numBatches nTest a.batch_size := by
        rcases Nat.eq_zero_or_pos (numBatches nTest a.batch_size) with h0 | h
        · exact absurd (Or.inl h0) hbad
        · exact h
      right; right
      exact ⟨imgSize,
        by rw [runMain_viewFail nTrain nTest hdd hne hbad
                (Nat.pos_of_ne_zero hep)]⟩

/-! ## Membership in the closed-form traces -/

lemma mem_trainTrace {v : ℚ} {e nB : Nat} {ev : Event}
    (h : ev ∈ trainTrace v e nB) :
    (∃ b, ev = .fwd e b ∨ ev = .lossBwd e b ∨ ev = .optStep e b)
    ∨ ev = .schedStep e v := by
  simp [trainTrace, trainBatchEvs] at h
  rcases h with ⟨b, _, hb⟩ | h
  · exact Or.inl ⟨b, hb⟩
  · exact Or.inr h

lemma mem_testTrace {a : Args} {nTest e nB : Nat} {ev : Event}
    (h : ev ∈ testTrace a nTest e nB) :
    ev = .saveImage (reconPath a e) (min (firstBatchSize nTest a.batch_size) 8)
    ∨ ∃ i, ev = .testFwd e i := by
  cases nB with
  | zero => simp [testTrace] at h
  | succ m =>
    simp [testTrace] at h
    rcases h with h | h | ⟨j, _, hj⟩
    · exact Or.inr ⟨0, h⟩
    · exact Or.inl h
    · exact Or.inr ⟨j + 1, hj.symm⟩

lemma mem_epochTrace {a : Args} {nTrain nTest e : Nat} {ev : Event}
    (h : ev ∈ epochTrace a nTrain nTest e) :
    (∃ b, ev = .fwd e b ∨ ev = .lossBwd e b ∨ ev = .optStep e b)
    ∨ ev = .schedStep e (lrAfter e)
    ∨ (∃ i, ev = .testFwd e i)
    ∨ ev = .saveImage (reconPath a e)
        (min (firstBatchSize nTest a.batch_size) 8)
    ∨ ev = .sampleLatents 64 a.z_dim
    ∨ ev = .saveImage (samplePath a e) 8 := by
  simp only [epochTrace, List.mem_append] at h
  rcases h with (h | h) | h
  · rcases mem_trainTrace h with h2 | h2
    · exact Or.inl h2
    · exact Or.inr (Or.inl h2)
  · rcases mem_testTrace h with h2 | h2
    · exact Or.inr (Or.inr (Or.inr (Or.inl h2)))
    · exact Or.inr (Or.inr (Or.inl h2))
  · simp only [List.mem_cons, List.not_mem_nil, or_false] at h
    rcases h with h2 | h2
    · exact Or.inr (Or.inr (Or.inr (Or.inr (Or.inl h2))))
    · exact Or.inr (Or.inr (Or.inr (Or.inr (Or.inr h2))))

lemma mem_preludeTrace {a : Args} {imgSize : Nat} {ev : Event}
    (h : ev ∈ preludeTrace a imgSize) :
    ev = .mkdir (dirName a) ∨ ev = .modelInit a.z_dim imgSize
    ∨ ev = .writerInit ∨ ev = .lossPlotInit (dirName a) := by
  simp [preludeTrace] at h
  rcases h with h | h | h
  · exact Or.inl h
  · exact Or.inr (Or.inl h)
  · cases htb : a.tensorboard
    · rw [htb] at h
      simp at h
      exact Or.inr (Or.inr (Or.inr h))
    · rw [htb] at h
      simp at h
      exact Or.inr (Or.inr (Or.inl h))

lemma mem_finaleTrace {a : Args} {ev : Event} (h : ev ∈ finaleTrace a) :
    ev = .saveCheckpoint (model_out_path a) checkpointKeys
    ∨ ev = .sampleLatents (a.z_dim * nums) a.z_dim
    ∨ ev = .saveImage (latentPath a) nums := by
  simp [finaleTrace] at h
  tauto

lemma mem_successTrace {a : Args} {imgSize nTrain nTest : Nat} {ev : Event}
    (h : ev ∈ successTrace a imgSize nTrain nTest) :
    ev ∈ preludeTrace a imgSize
    ∨ (∃ i, i < a.epochs ∧ ev ∈ epochTrace a nTrain nTest (i + 1))
    ∨ ev ∈ finaleTrace a := by
  simp only [successTrace, List.mem_append, List.mem_flatMap,
    List.mem_range] at h
  rcases h with (h | ⟨i, hi, hmem⟩) | h
  · exact Or.inl h
  · exact Or.inr (Or.inl ⟨i, hi, hmem⟩)
  · exact Or.inr (Or.inr h)

/-! ## Extraction of file writes and scheduler steps from a run -/

/-- The image path an event writes, if any. -/
def imagePathOf : Event → Option String
  | .saveImage p _ => some p
  | _ => none

/-- The image files a run writes, in order. -/
def savedImages (s : St) : List String := s.events.filterMap imagePathOf

/-- The `(epoch, new learning rate)` pair of a scheduler step event. -/
def schedOf : Event → Option (Nat × ℚ)
  | .schedStep e v => some (e, v)
  | _ => none

/-- The scheduler steps of a run, in order. -/
def schedEvents (s : St) : List (Nat × ℚ) := s.events.filterMap schedOf

/-- The `(path, dict keys)` payload of a checkpoint save event. -/
def ckptOf : Event → Option (String × List String)
  | .saveCheckpoint p k => some (p, k)
  | _ => none

/-- The checkpoint files a run writes, in order. -/
def savedCheckpoints (s : St) : List (String × List String) :=
  s.events.filterMap ckptOf

lemma filterMap_imagePathOf_trainTrace (v : ℚ) (e nB : Nat) :
    (trainTrace v e nB).filterMap imagePathOf = [] := by
  rw [List.filterMap_eq_nil_iff]
  intro ev hev
  rcases mem_trainTrace hev with ⟨b, h | h | h⟩ | h
  all_goals subst h; rfl

lemma filterMap_imagePathOf_testTrace (a : Args) (nTest e m : Nat) :
    (testTrace a nTest e (m + 1)).filterMap imagePathOf = [reconPath a e] := by
  simp only [testTrace, List.filterMap_cons, imagePathOf, List.filterMap_map]
  have : ∀ j ∈ List.range m, (imagePathOf ∘ fun j => Event.testFwd e (j + 1)) j = none := by
    intro j _
    rfl
  rw [List.filterMap_eq_nil_iff.mpr this]

lemma filterMap_imagePathOf_preludeTrace (a : Args) (imgSize : Nat) :
    (preludeTrace a imgSize).filterMap imagePathOf = [] := by
  cases htb : a.tensorboard
  all_goals simp [preludeTrace, htb, imagePathOf]

lemma filterMap_imagePathOf_finaleTrace (a : Args) :
    (finaleTrace a).filterMap imagePathOf = [latentPath a] := by
  simp [finaleTrace, imagePathOf]

lemma filterMap_imagePathOf_epochTrace (a : Args) (nTrain nTest e : Nat)
    (hne : 0 < numBatches nTest a.batch_size) :
    (epochTrace a nTrain nTest e).filterMap imagePathOf
      = [reconPath a e, samplePath a e] := by
  obtain ⟨m, hm⟩ : ∃ m, numBatches nTest a.batch_size = m + 1 :=
    ⟨numBatches nTest a.batch_size - 1, (Nat.succ_pred_eq_of_pos hne).symm⟩
  simp only [epochTrace, hm, List.filterMap_append,
    filterMap_imagePathOf_trainTrace, filterMap_imagePathOf_testTrace]
  simp [imagePathOf]

lemma savedImages_successTrace (a : Args) (imgSize nTrain nTest : Nat)
    (hne : 0 < numBatches nTest a.batch_size) :
    (successTrace a imgSize nTrain nTest).filterMap imagePathOf
      = (List.range a.epochs).flatMap
          (fun i => [reconPath a (i + 1), samplePath a (i + 1)])
        ++ [latentPath a] := by
  simp only [successTrace, List.filterMap_append,
    filterMap_imagePathOf_preludeTrace, filterMap_imagePathOf_finaleTrace,
    List.filterMap_flatMap]
  rw [List.flatMap_congr (fun i _ =>
    filterMap_imagePathOf_epochTrace a nTrain nTest (i + 1) hne)]
  simp

lemma filterMap_schedOf_trainTrace (v : ℚ) (e nB : Nat) :
    (trainTrace v e nB).filterMap schedOf = [(e, v)] := by
  simp only [trainTrace, List.filterMap_append]
  have h1 : ((List.range nB).flatMap (trainBatchEvs e)).filterMap schedOf = [] := by
    rw [List.filterMap_eq_nil_iff]
    intro ev hev
    simp only [List.mem_flatMap, trainBatchEvs, List.mem_cons,
      List.not_mem_nil, or_false] at hev
    rcases hev with ⟨b, _, h | h | h⟩
    all_goals subst h; rfl
  rw [h1]
  simp [schedOf]

lemma filterMap_schedOf_testTrace (a : Args) (nTest e nB : Nat) :
    (testTrace a nTest e nB).filterMap schedOf = [] := by
  rw [List.filterMap_eq_nil_iff]
  intro ev hev
  rcases mem_testTrace hev with h | ⟨i, h⟩
  all_goals subst h; rfl

lemma filterMap_schedOf_epochTrace (a : Args) (nTrain nTest e : Nat) :
    (epochTrace a nTrain nTest e).filterMap schedOf = [(e, lrAfter e)] := by
  simp only [epochTrace, List.filterMap_append, filterMap_schedOf_trainTrace,
    filterMap_schedOf_testTrace]
  simp [schedOf]

lemma filterMap_schedOf_preludeTrace (a : Args) (imgSize : Nat) :
    (preludeTrace a imgSize).filterMap schedOf = [] := by
  cases htb : a.tensorboard
  all_goals simp [preludeTrace, htb, schedOf]

lemma filterMap_schedOf_finaleTrace (a : Args) :
    (finaleTrace a).filterMap schedOf = [] := by
  simp [finaleTrace, schedOf]

lemma schedEvents_successTrace (a : Args) (imgSize nTrain nTest : Nat) :
    (successTrace a imgSize nTrain nTest).filterMap schedOf
      = (List.range a.epochs).map (fun i => (i + 1, lrAfter (i + 1))) := by
  simp only [successTrace, List.filterMap_append,
    filterMap_schedOf_preludeTrace, filterMap_schedOf_finaleTrace,
    List.filterMap_flatMap]
  rw [List.flatMap_congr (fun i _ =>
    filterMap_schedOf_epochTrace a nTrain nTest (i + 1))]
  simp only [List.append_nil, List.nil_append]
  induction a.epochs with
  | zero => simp
  | succ m ih => simp [List.range_succ, ih]

lemma filterMap_ckptOf_trainTrace (v : ℚ) (e nB : Nat) :
    (trainTrace v e nB).filterMap ckptOf = [] := by
  rw [List.filterMap_eq_nil_iff]
  intro ev hev
  rcases mem_trainTrace hev with ⟨b, h | h | h⟩ | h
  all_goals subst h; rfl

lemma filterMap_ckptOf_epochTrace (a : Args) (nTrain nTest e : Nat) :
    (epochTrace a nTrain nTest e).filterMap ckptOf = [] := by
  rw [List.filterMap_eq_nil_iff]
  intro ev hev
  rcases mem_epochTrace hev with ⟨b, h | h | h⟩ | h | ⟨i, h⟩ | h | h | h
  all_goals subst h; rfl

lemma savedCheckpoints_successTrace (a : Args) (imgSize nTrain nTest : Nat) :
    (successTrace a imgSize nTrain nTest).filterMap ckptOf
      = [(model_out_path a, checkpointKeys)] := by
  simp only [successTrace, List.filterMap_append, List.filterMap_flatMap]
  rw [List.flatMap_congr (fun i _ =>
    filterMap_ckptOf_epochTrace a nTrain nTest (i + 1))]
  cases htb : a.tensorboard
  all_goals simp [preludeTrace, finaleTrace, htb, ckptOf]

/-! ## Path decompositions and dispatch facts -/

lemma reconPath_eq (a : Args) (e : Nat) :
    reconPath a e
      = dirName a ++ "/" ++ ("reconstruction_" ++ toString e ++ ".png") := by
  unfold reconPath
  have h : (("/" : String) ++ "reconstruction_") = "/reconstruction_" := rfl
  rw [← h]
  rw [String.append_assoc, String.append_assoc, String.append_assoc,
    String.append_assoc]
  rw [String.append_assoc]

lemma samplePath_eq (a : Args) (e : Nat) :
    samplePath a e = dirName a ++ "/" ++ ("sample_" ++ toString e ++ ".png") := by
  unfold samplePath
  have h : (("/" : String) ++ "sample_") = "/sample_" := rfl
  rw [← h]
  rw [String.append_assoc, String.append_assoc, String.append_assoc,
    String.append_assoc]
  rw [String.append_assoc]

lemma latentPath_eq (a : Args) :
    latentPath a = dirName a ++ "/" ++ "sample_latent_space.png" := by
  unfold latentPath
  have h : (("/" : String) ++ "sample_latent_space.png")
      = "/sample_latent_space.png" := rfl
  rw [← h, String.append_assoc]

lemma model_out_path_eq (a : Args) :
    model_out_path a = dirName a ++ "/" ++ (a.model_name ++ "_model.pth") := by
  unfold model_out_path
  rw [String.append_assoc]

lemma dispatch_imgSize_pos {a : Args} {ds : Dataset} {imgSize : Nat}
    (hd : datasetDispatch a = .ok (ds, imgSize)) : 0 < imgSize := by
  unfold datasetDispatch at hd
  split_ifs at hd
  all_goals simp_all
  all_goals omega

/-! ## Concrete argument vectors used by the witnesses -/

/-- A small MNIST run. -/
def argsMnist : Args :=
  { data := "mnist", model_name := "VAE", z_dim := 2, beta := 4,
    batch_size := 2, epochs := 1, tensorboard := false, seed := 1,
    no_cuda := false, log_interval := 10 }

/-- The same run with an unsupported dataset name. -/
def argsCifar : Args := { argsMnist with data := "cifar10" }

/-- Upper-case and mixed-case dataset spellings. -/
def argsUpper : Args := { argsMnist with data := "MNIST" }

/-- Mixed-case dSprites spelling. -/
def argsDsprites : Args := { argsMnist with data := "dSprites" }

/-- All-caps dSprites spelling. -/
def argsDspritesCaps : Args := { argsMnist with data := "DSPRITES" }

lemma dispatch_mnist {a : Args} (h : pyLower a.data = "mnist") :
    datasetDispatch a = .ok (.mnist, 28) := by
  unfold datasetDispatch
  rw [if_pos h]

lemma dispatch_dsprites {a : Args} (h : pyLower a.data = "dsprites") :
    datasetDispatch a = .ok (.dsprites, 64) := by
  unfold datasetDispatch
  rw [if_neg (by rw [h]; decide), if_pos h]

lemma dispatch_unknown {a : Args} (h1 : pyLower a.data ≠ "mnist")
    (h2 : pyLower a.data ≠ "dsprites") :
    datasetDispatch a = .error "Dataset not found. Try: MNIST, dSprites" := by
  unfold datasetDispatch
  rw [if_neg h1, if_neg h2]

/-! ## The claims -/

/-- Claim C1: for every dataset-name argument whose lowercased value is
neither `mnist` nor `dsprites`, the program raises an exception during
dataset selection — the run's error is the dataset-dispatch exception and
its trace contains only the `mkdir` of the results directory: no model is
constructed, no training step runs, and no output file is written. -/
theorem unknown_dataset_fails_fast (a : Args) (nTrain nTest : Nat)
    (h1 : pyLower a.data ≠ "mnist") (h2 : pyLower a.data ≠ "dsprites") :
    (runMain a nTrain nTest).error
      = some "Dataset not found. Try: MNIST, dSprites"
    ∧ (runMain a nTrain nTest).events = [.mkdir (dirName a)]
    ∧ (∀ z i, Event.modelInit z i ∉ (runMain a nTrain nTest).events)
    ∧ (∀ e b, Event.fwd e b ∉ (runMain a nTrain nTest).events)
    ∧ (∀ p n, Event.saveImage p n ∉ (runMain a nTrain nTest).events)
    ∧ (∀ p k, Event.saveCheckpoint p k ∉ (runMain a nTrain nTest).events) := by
  rw [runMain_badData a nTrain nTest (dispatch_unknown h1 h2)]
  refine ⟨rfl, rfl, ?_, ?_, ?_, ?_⟩
  all_goals intro x y
  all_goals simp

/-- Witness for C1 at the concrete dataset name `cifar10`. -/
theorem unknown_dataset_fails_fast_witness :
    (runMain argsCifar 3 2).error
      = some "Dataset not found. Try: MNIST, dSprites"
    ∧ (runMain argsCifar 3 2).events = [.mkdir (dirName argsCifar)]
    ∧ (∀ z i, Event.modelInit z i ∉ (runMain argsCifar 3 2).events)
    ∧ (∀ e b, Event.fwd e b ∉ (runMain argsCifar 3 2).events)
    ∧ (∀ p n, Event.saveImage p n ∉ (runMain argsCifar 3 2).events)
    ∧ (∀ p k, Event.saveCheckpoint p k ∉ (runMain argsCifar 3 2).events) :=
  unknown_dataset_fails_fast argsCifar 3 2 (by decide) (by decide)

/-- Claim C9: dataset-name matching is case-insensitive — every argument
whose Python lowercasing is `mnist` (resp. `dsprites`) selects the MNIST
loader with image size 28 (resp. the dSprites loader with image size 64),
and every other name raises the exception whose message suggests the
spellings `MNIST, dSprites`. -/
theorem dataset_matching_case_insensitive (a : Args) :
    (pyLower a.data = "mnist" → datasetDispatch a = .ok (.mnist, 28))
    ∧ (pyLower a.data = "dsprites" → datasetDispatch a = .ok (.dsprites, 64))
    ∧ (pyLower a.data ≠ "mnist" → pyLower a.data ≠ "dsprites" →
        datasetDispatch a = .error "Dataset not found. Try: MNIST, dSprites") :=
  ⟨dispatch_mnist, dispatch_dsprites, dispatch_unknown⟩

/-- Witness for C9 at the concrete spellings `MNIST`, `dSprites`,
`DSPRITES`. -/
theorem dataset_matching_case_insensitive_witness :
    datasetDispatch argsUpper = .ok (.mnist, 28)
    ∧ datasetDispatch argsDsprites = .ok (.dsprites, 64)
    ∧ datasetDispatch argsDspritesCaps = .ok (.dsprites, 64) :=
  ⟨(dataset_matching_case_insensitive argsUpper).1 (by decide),
   (dataset_matching_case_insensitive argsDsprites).2.1 (by decide),
   (dataset_matching_case_insensitive argsDspritesCaps).2.1 (by decide)⟩

/-! ## Learning-rate facts -/

lemma lrAfter_closed (n : Nat) : lrAfter n = initial_lr * gamma ^ n := by
  induction n with
  | zero => simp [lrAfter]
  | succ m ih => rw [lrAfter, ih, pow_succ, mul_assoc]

lemma lrAfter_pos (n : Nat) : 0 < lrAfter n := by
  induction n with
  | zero => norm_num [lrAfter, initial_lr]
  | succ m ih => rw [lrAfter]; exact mul_pos ih (by norm_num [gamma])

lemma lrAfter_strictAnti : StrictAnti lrAfter := by
  apply strictAnti_nat_of_succ_lt
  intro n
  rw [lrAfter]
  exact mul_lt_of_lt_one_right (lrAfter_pos n) (by norm_num [gamma])

/-- Every scheduler step any run ever records carries the learning rate
`lrAfter e` for its epoch `e` — independently of all CLI arguments. -/
lemma schedEvents_value (a : Args) (nTrain nTest : Nat) :
    ∀ p ∈ schedEvents (runMain a nTrain nTest), p.2 = lrAfter p.1 := by
  intro p hp
  rcases runMain_cases a nTrain nTest with hc | ⟨img, hc⟩ | ⟨img, hc⟩
  all_goals rw [hc] at hp
  all_goals unfold schedEvents at hp
  · simp [schedOf] at hp
  · rw [schedEvents_successTrace] at hp
    simp only [List.mem_map, List.mem_range] at hp
    obtain ⟨i, _, hi⟩ := hp
    rw [← hi]
  · simp only [List.filterMap_append, filterMap_schedOf_preludeTrace,
      filterMap_schedOf_trainTrace, List.nil_append] at hp
    simp [schedOf] at hp
    rw [hp]

/-- Claim C7: the learning rate starts at 1e-3 and is multiplied by 0.98
exactly once per epoch: `lrAfter n = 1e-3 * 0.98 ^ n`, the sequence is
strictly decreasing, and every error-free run finishes with learning rate
`lrAfter epochs`, its recorded scheduler steps being exactly one per epoch
`1, ..., epochs` in order with the rate `lrAfter e` in force after epoch
`e`. -/
theorem lr_decay_schedule :
    (∀ n, lrAfter n = (1 / 1000) * (98 / 100) ^ n)
    ∧ StrictAnti lrAfter
    ∧ (∀ a nTrain nTest, (runMain a nTrain nTest).error = none →
        (runMain a nTrain nTest).lr = lrAfter a.epochs
        ∧ schedEvents (runMain a nTrain nTest)
            = (List.range a.epochs).map (fun i => (i + 1, lrAfter (i + 1)))) := by
  refine ⟨lrAfter_closed, lrAfter_strictAnti, ?_⟩
  intro a nTrain nTest h
  rcases runMain_cases a nTrain nTest with hc | ⟨img, hc⟩ | ⟨img, hc⟩
  · rw [hc] at h; simp at h
  · rw [hc]
    exact ⟨rfl, schedEvents_successTrace a img nTrain nTest⟩
  · rw [hc] at h; simp at h

/-- Witness for C7: a one-epoch MNIST run. -/
theorem lr_decay_schedule_witness :
    (runMain argsMnist 3 2).lr = lrAfter argsMnist.epochs
    ∧ schedEvents (runMain argsMnist 3 2)
        = (List.range argsMnist.epochs).map (fun i => (i + 1, lrAfter (i + 1))) :=
  lr_decay_schedule.2.2 argsMnist 3 2
    (by rw [runMain_ok 3 2 (dispatch_mnist (by decide))
          (Or.inr (viewOk_of_le (by decide)))])

/-- Claim C4: every error-free run persists exactly one checkpoint, at
`<results dir>/<model_name>_model.pth`, and the checkpoint dict has
exactly the three keys `model` (the model object), `state_dict` (the
trained parameters) and `optimizer` (the optimizer state). -/
theorem checkpoint_contents (a : Args) (nTrain nTest : Nat)
    (h : (runMain a nTrain nTest).error = none) :
    savedCheckpoints (runMain a nTrain nTest)
      = [(model_out_path a, checkpointKeys)]
    ∧ checkpointKeys = ["model", "state_dict", "optimizer"]
    ∧ checkpointKeys.length = 3
    ∧ model_out_path a = dirName a ++ "/" ++ (a.model_name ++ "_model.pth") := by
  rcases runMain_cases a nTrain nTest with hc | ⟨img, hc⟩ | ⟨img, hc⟩
  · rw [hc] at h; simp at h
  · rw [hc]
    exact ⟨savedCheckpoints_successTrace a img nTrain nTest, rfl, rfl,
      model_out_path_eq a⟩
  · rw [hc] at h; simp at h

/-- Witness for C4: a one-epoch MNIST run. -/
theorem checkpoint_contents_witness :
    savedCheckpoints (runMain argsMnist 3 2)
      = [(model_out_path argsMnist, checkpointKeys)]
    ∧ checkpointKeys = ["model", "state_dict", "optimizer"]
    ∧ checkpointKeys.length = 3
    ∧ model_out_path argsMnist
        = dirName argsMnist ++ "/" ++ (argsMnist.model_name ++ "_model.pth") :=
  checkpoint_contents argsMnist 3 2
    (by rw [runMain_ok 3 2 (dispatch_mnist (by decide))
          (Or.inr (viewOk_of_le (by decide)))])

/-- Claim C3: the results directory is named exactly
`results_<data>_<model>_zdim-<z>_beta-<b>`, and every image file and every
checkpoint file any run writes lives inside that directory. -/
theorem outputs_confined_to_results_dir (a : Args) (nTrain nTest : Nat) :
    dirName a = "results_" ++ a.data ++ "_" ++ a.model_name ++ "_zdim-"
        ++ toString a.z_dim ++ "_beta-" ++ toString a.beta
    ∧ (∀ p n, Event.saveImage p n ∈ (runMain a nTrain nTest).events →
        ∃ f, p = dirName a ++ "/" ++ f)
    ∧ (∀ p k, Event.saveCheckpoint p k ∈ (runMain a nTrain nTest).events →
        p = dirName a ++ "/" ++ (a.model_name ++ "_model.pth")) := by
  refine ⟨rfl, ?_, ?_⟩
  · intro p n hmem
    rcases runMain_cases a nTrain nTest with hc | ⟨img, hc⟩ | ⟨img, hc⟩
    all_goals rw [hc] at hmem
    · simp at hmem
    · rcases mem_successTrace hmem with h | ⟨i, _, h⟩ | h
      · rcases mem_preludeTrace h with h | h | h | h
        all_goals simp at h
      · rcases mem_epochTrace h with ⟨b, h | h | h⟩ | h | ⟨i2, h⟩ | h | h | h
        · simp at h
        · simp at h
        · simp at h
        · simp at h
        · simp at h
        · refine ⟨"reconstruction_" ++ toString (i + 1) ++ ".png", ?_⟩
          have hp : p = reconPath a (i + 1) := by
            injection h with h1 h2
          rw [hp, reconPath_eq]
        · simp at h
        · refine ⟨"sample_" ++ toString (i + 1) ++ ".png", ?_⟩
          have hp : p = samplePath a (i + 1) := by
            injection h with h1 h2
          rw [hp, samplePath_eq]
      · rcases mem_finaleTrace h with h | h | h
        · simp at h
        · simp at h
        · refine ⟨"sample_latent_space.png", ?_⟩
          have hp : p = latentPath a := by
            injection h with h1 h2
          rw [hp, latentPath_eq]
    · simp only [List.mem_append] at hmem
      rcases hmem with h | h | h
      · rcases mem_preludeTrace h with h | h | h | h
        all_goals simp at h
      · rcases mem_trainTrace h with ⟨b, h | h | h⟩ | h
        all_goals simp at h
      · simp at h
  · intro p k hmem
    rcases runMain_cases a nTrain nTest with hc | ⟨img, hc⟩ | ⟨img, hc⟩
    all_goals rw [hc] at hmem
    · simp at hmem
    · rcases mem_successTrace hmem with h | ⟨i, _, h⟩ | h
      · rcases mem_preludeTrace h with h | h | h | h
        all_goals simp at h
      · rcases mem_epochTrace h with ⟨b, h | h | h⟩ | h | ⟨i2, h⟩ | h | h | h
        all_goals simp at h
      · rcases mem_finaleTrace h with h | h | h
        · have hp : p = model_out_path a := by
            injection h with h1 h2
          rw [hp, model_out_path_eq]
        · simp at h
        · simp at h
    · simp only [List.mem_append] at hmem
      rcases hmem with h | h | h
      · rcases mem_preludeTrace h with h | h | h | h
        all_goals simp at h
      · rcases mem_trainTrace h with ⟨b, h | h | h⟩ | h
        all_goals simp at h
      · simp at h

/-- Witness for C3: the epoch-1 reconstruction image of a concrete MNIST
run lands inside the results directory. -/
theorem outputs_confined_to_results_dir_witness :
    ∃ f, reconPath argsMnist 1 = dirName argsMnist ++ "/" ++ f :=
  (outputs_confined_to_results_dir argsMnist 3 2).2.1
    (reconPath argsMnist 1) 2 (by decide)

/-- Claim C6: the driver is a nested sequential iteration — a run with a
recognized dataset and a well-shaped test loader raises no error, and its
trace is the prelude followed, for each epoch `e = 1, ..., epochs` in
increasing order, by all training batches in order (each a forward pass,
loss + backprop, optimizer step, delegated to the framework), then the
scheduler step, then the evaluation pass over every test batch, then the
prior sampling, and finally the checkpoint save and latent traversal. -/
theorem training_loop_structure {a : Args} {ds : Dataset} {imgSize : Nat}
    (nTrain nTest : Nat) (hd : datasetDispatch a = .ok (ds, imgSize))
    (hok : a.epochs = 0 ∨ viewOk a imgSize nTest) :
    (runMain a nTrain nTest).error = none
    ∧ (runMain a nTrain nTest).events
      = preludeTrace a imgSize
        ++ ((List.range a.epochs).flatMap (fun i =>
            ((List.range (numBatches nTrain a.batch_size)).flatMap
                (fun b => [.fwd (i + 1) b, .lossBwd (i + 1) b,
                           .optStep (i + 1) b])
              ++ [.schedStep (i + 1) (lrAfter (i + 1))])
              ++ (testTrace a nTest (i + 1) (numBatches nTest a.batch_size)
                ++ [.sampleLatents 64 a.z_dim,
                    .saveImage (samplePath a (i + 1)) 8]))
          ++ finaleTrace a) := by
  rw [runMain_ok nTrain nTest hd hok]
  refine ⟨rfl, ?_⟩
  simp only [successTrace, epochTrace, trainTrace, List.append_assoc,
    List.cons_append, List.nil_append]
  rfl

/-- Witness for C6: a concrete one-epoch MNIST run. -/
theorem training_loop_structure_witness :
    (runMain argsMnist 3 2).error = none
    ∧ (runMain argsMnist 3 2).events
      = preludeTrace argsMnist 28
        ++ ((List.range argsMnist.epochs).flatMap (fun i =>
            ((List.range (numBatches 3 argsMnist.batch_size)).flatMap
                (fun b => [.fwd (i + 1) b, .lossBwd (i + 1) b,
                           .optStep (i + 1) b])
              ++ [.schedStep (i + 1) (lrAfter (i + 1))])
              ++ (testTrace argsMnist 2 (i + 1)
                    (numBatches 2 argsMnist.batch_size)
                ++ [.sampleLatents 64 argsMnist.z_dim,
                    .saveImage (samplePath argsMnist (i + 1)) 8]))
          ++ finaleTrace argsMnist) :=
  training_loop_structure 3 2 (dispatch_mnist (by decide))
    (Or.inr (viewOk_of_le (by decide)))

/-- The `(number of latent vectors, latent dimension)` payload of a
latent-decoding event. -/
def latentsOf : Event → Option (Nat × Nat)
  | .sampleLatents c z => some (c, z)
  | _ => none

lemma filterMap_latentsOf_trainTrace (v : ℚ) (e nB : Nat) :
    (trainTrace v e nB).filterMap latentsOf = [] := by
  rw [List.filterMap_eq_nil_iff]
  intro ev hev
  rcases mem_trainTrace hev with ⟨b, h | h | h⟩ | h
  all_goals subst h; rfl

lemma filterMap_latentsOf_testTrace (a : Args) (nTest e nB : Nat) :
    (testTrace a nTest e nB).filterMap latentsOf = [] := by
  rw [List.filterMap_eq_nil_iff]
  intro ev hev
  rcases mem_testTrace hev with h | ⟨i, h⟩
  all_goals subst h; rfl

lemma filterMap_latentsOf_epochTrace (a : Args) (nTrain nTest e : Nat) :
    (epochTrace a nTrain nTest e).filterMap latentsOf = [(64, a.z_dim)] := by
  simp only [epochTrace, List.filterMap_append, filterMap_latentsOf_trainTrace,
    filterMap_latentsOf_testTrace]
  simp [latentsOf]

lemma latents_successTrace (a : Args) (imgSize nTrain nTest : Nat) :
    (successTrace a imgSize nTrain nTest).filterMap latentsOf
      = List.replicate a.epochs (64, a.z_dim) ++ [(a.z_dim * nums, a.z_dim)] := by
  simp only [successTrace, List.filterMap_append, List.filterMap_flatMap]
  rw [List.flatMap_congr (fun i _ =>
    filterMap_latentsOf_epochTrace a nTrain nTest (i + 1))]
  have hpre : (preludeTrace a imgSize).filterMap latentsOf = [] := by
    cases htb : a.tensorboard
    all_goals simp [preludeTrace, htb, latentsOf]
  rw [hpre]
  have hrep : ((List.range a.epochs).flatMap fun _ => [((64 : Nat), a.z_dim)])
      = List.replicate a.epochs (64, a.z_dim) := by
    induction a.epochs with
    | zero => simp
    | succ m ih => simp [List.range_succ, ih, List.replicate_succ']
  rw [hrep]
  simp [finaleTrace, latentsOf]

/-- Claim C5: in a run with a recognized dataset whose test set holds at
least one full batch, the image files written are exactly, in order: for
every epoch `e = 1, ..., epochs` one reconstruction image
`reconstruction_<e>.png` and one prior-sample image `sample_<e>.png`, and
after the final epoch a single traversal image `sample_latent_space.png`;
moreover each epoch decodes exactly 64 prior latent vectors and the final
traversal decodes `z_dim * 11`. -/
theorem per_epoch_image_files (a : Args) {ds : Dataset} {imgSize : Nat}
    (nTrain nTest : Nat) (hd : datasetDispatch a = .ok (ds, imgSize))
    (hbs : 0 < a.batch_size) (hts : a.batch_size ≤ nTest) :
    savedImages (runMain a nTrain nTest)
      = (List.range a.epochs).flatMap
          (fun i => [reconPath a (i + 1), samplePath a (i + 1)])
        ++ [latentPath a]
    ∧ (runMain a nTrain nTest).events.filterMap latentsOf
      = List.replicate a.epochs (64, a.z_dim)
        ++ [(a.z_dim * nums, a.z_dim)] := by
  rw [runMain_ok nTrain nTest hd (Or.inr (viewOk_of_le hts))]
  exact ⟨savedImages_successTrace a imgSize nTrain nTest
      (numBatches_pos hbs (lt_of_lt_of_le hbs hts)),
    latents_successTrace a imgSize nTrain nTest⟩

/-- Witness for C5: a concrete one-epoch MNIST run. -/
theorem per_epoch_image_files_witness :
    savedImages (runMain argsMnist 3 2)
      = (List.range argsMnist.epochs).flatMap
          (fun i => [reconPath argsMnist (i + 1), samplePath argsMnist (i + 1)])
        ++ [latentPath argsMnist]
    ∧ (runMain argsMnist 3 2).events.filterMap latentsOf
      = List.replicate argsMnist.epochs (64, argsMnist.z_dim)
        ++ [(argsMnist.z_dim * nums, argsMnist.z_dim)] :=
  per_epoch_image_files argsMnist 3 2 (dispatch_mnist (by decide))
    (by decide) (by decide)

/-- A small MNIST run whose test set is smaller than one batch. -/
def argsMnistB4 : Args := { argsMnist with batch_size := 4 }

/-- Claim C10: the per-epoch reconstruction save reshapes the first test
batch with `args.batch_size`, so it requires the first test batch to hold
exactly `batch_size` elements; when the test set is nonempty but smaller
than `batch_size` the first test batch is smaller, the reshape raises
instead of saving, and the crashed run writes no image at all. -/
theorem recon_save_requires_full_batch (a : Args) {ds : Dataset}
    {imgSize : Nat} (nTrain nTest : Nat)
    (hd : datasetDispatch a = .ok (ds, imgSize)) (hep : 0 < a.epochs)
    (h1 : 0 < nTest) (h2 : nTest < a.batch_size) :
    firstBatchSize nTest a.batch_size < a.batch_size
    ∧ (runMain a nTrain nTest).error = some "shape is invalid for input"
    ∧ (∀ e n, Event.saveImage (reconPath a e) n ∉ (runMain a nTrain nTest).events)
    ∧ savedImages (runMain a nTrain nTest) = [] := by
  have himg : 0 < imgSize := dispatch_imgSize_pos hd
  have hbad : ¬ viewOk a imgSize nTest := not_viewOk_of_small himg h1 h2
  have hne : 0 < numBatches nTest a.batch_size :=
    numBatches_pos (lt_trans h1 h2) h1
  rw [runMain_viewFail nTrain nTest hd hne hbad hep]
  refine ⟨?_, rfl, ?_, ?_⟩
  · rw [firstBatchSize, Nat.min_eq_right (le_of_lt h2)]
    exact h2
  · intro e n hmem
    simp only [List.mem_append] at hmem
    rcases hmem with h | h | h
    · rcases mem_preludeTrace h with h | h | h | h
      all_goals simp at h
    · rcases mem_trainTrace h with ⟨b, h | h | h⟩ | h
      all_goals simp at h
    · simp at h
  · unfold savedImages
    simp only [List.filterMap_append, filterMap_imagePathOf_preludeTrace,
      filterMap_imagePathOf_trainTrace]
    simp [imagePathOf]

/-- Witness for C10: MNIST run with batch size 4 but only 2 test points. -/
theorem recon_save_requires_full_batch_witness :
    firstBatchSize 2 argsMnistB4.batch_size < argsMnistB4.batch_size
    ∧ (runMain argsMnistB4 3 2).error = some "shape is invalid for input"
    ∧ (∀ e n, Event.saveImage (reconPath argsMnistB4 e) n
        ∉ (runMain argsMnistB4 3 2).events)
    ∧ savedImages (runMain argsMnistB4 3 2) = [] :=
  recon_save_requires_full_batch argsMnistB4 3 2 (dispatch_mnist (by decide))
    (by decide) (by decide) (by decide)

/-! ## Latent traversal tensor -/

lemma zAux_eq (m d i j : Nat) :
    ((List.range m).foldl assignDim (fun _ _ _ => 0)) d i j
      = if d = j ∧ d < m then x_range i else 0 := by
  induction m with
  | zero => simp
  | succ k ih =>
    rw [List.range_succ, List.foldl_append, List.foldl_cons, List.foldl_nil]
    change (if d = k ∧ j = k then x_range i
        else ((List.range k).foldl assignDim (fun _ _ _ => 0)) d i j) = _
    by_cases hdk : d = k ∧ j = k
    · rw [if_pos hdk, if_pos ⟨hdk.1.trans hdk.2.symm, by omega⟩]
    · rw [if_neg hdk, ih]
      by_cases hc : d = j ∧ d < k
      · rw [if_pos hc, if_pos ⟨hc.1, by omega⟩]
      · rw [if_neg hc, if_neg (by omega)]

lemma zTensor_eq (zdim d i j : Nat) :
    zTensor zdim d i j = if d = j ∧ d < zdim then x_range i else 0 :=
  zAux_eq zdim d i j

lemma x_range_eq (i : Nat) : x_range i = -3 + (3 / 5) * i := by
  simp only [x_range, linspace, nums]
  push_cast
  ring

/-- Claim C8: the latent-space traversal batch consists of `z_dim` groups
of `nums = 11` latent vectors: in group `d`, row `i` has coordinate `d`
equal to `x_range i` (the 11 evenly spaced values from -3 to 3, step 3/5)
and every other coordinate 0; every error-free run decodes exactly
`z_dim * 11` traversal vectors and saves the traversal grid with 11 images
per row. -/
theorem latent_traversal_grid (zdim : Nat) :
    (∀ d i j, d < zdim → i < nums →
        zFlat zdim (d * nums + i) j = if j = d then x_range i else 0)
    ∧ nums = 11
    ∧ x_range 0 = -3
    ∧ x_range (nums - 1) = 3
    ∧ (∀ t, x_range (t + 1) - x_range t = 3 / 5)
    ∧ (∀ (a : Args) (nTrain nTest : Nat),
        (runMain a nTrain nTest).error = none →
        Event.sampleLatents (a.z_dim * nums) a.z_dim
            ∈ (runMain a nTrain nTest).events
        ∧ Event.saveImage (latentPath a) nums
            ∈ (runMain a nTrain nTest).events) := by
  refine ⟨?_, rfl, ?_, ?_, ?_, ?_⟩
  · intro d i j hd hi
    have h1 : (d * nums + i) / nums = d := by
      simp only [nums] at hi ⊢
      omega
    have h2 : (d * nums + i) % nums = i := by
      simp only [nums] at hi ⊢
      omega
    rw [zFlat, h1, h2, zTensor_eq]
    by_cases hj : j = d
    · rw [if_pos ⟨hj.symm, hd⟩, if_pos hj]
    · rw [if_neg (fun hx => hj hx.1.symm), if_neg hj]
  · rw [x_range_eq]; norm_num
  · rw [show nums - 1 = 10 from rfl, x_range_eq]; norm_num
  · intro t
    rw [x_range_eq, x_range_eq]
    push_cast
    ring
  · intro a nTrain nTest h
    rcases runMain_cases a nTrain nTest with hc | ⟨img, hc⟩ | ⟨img, hc⟩
    · rw [hc] at h; simp at h
    · rw [hc]
      constructor
      all_goals simp [successTrace, finaleTrace]
    · rw [hc] at h; simp at h

/-- Witness for C8: a 3-dimensional latent space, group 1, row 2, plus the
traversal events of a concrete MNIST run. -/
theorem latent_traversal_grid_witness :
    zFlat 3 (1 * nums + 2) 1 = x_range 2
    ∧ Event.saveImage (latentPath argsMnist) nums
        ∈ (runMain argsMnist 3 2).events := by
  constructor
  · have h := (latent_traversal_grid 3).1 1 2 1 (by decide) (by decide)
    simpa using h
  · exact ((latent_traversal_grid 3).2.2.2.2.2 argsMnist 3 2
      (by rw [runMain_ok 3 2 (dispatch_mnist (by decide))
            (Or.inr (viewOk_of_le (by decide)))])).2

/-- Any scheduler step any run records for epoch `e` carries the same
learning rate `lrAfter e`, whatever the CLI arguments were. -/
lemma schedStep_value_det (a : Args) (nTrain nTest e : Nat) (v : ℚ)
    (h : Event.schedStep e v ∈ (runMain a nTrain nTest).events) :
    v = lrAfter e :=
  schedEvents_value a nTrain nTest (e, v) (List.mem_filterMap.mpr ⟨_, h, rfl⟩)

/-- Counterexample to claim C2 as stated: no two invocations — whatever
their argument vectors and dataset sizes — ever use different learning
rates at the same epoch, so no CLI flag controls the learning-rate
schedule.  (The rate at epoch `e` is always `1e-3 * 0.98 ^ e`, fixed by
the literals in the optimizer/scheduler setup.) -/
theorem lr_schedule_not_flag_controlled :
    ¬ ∃ (a₁ a₂ : Args) (nTr₁ nTe₁ nTr₂ nTe₂ e : Nat) (v₁ v₂ : ℚ),
        Event.schedStep e v₁ ∈ (runMain a₁ nTr₁ nTe₁).events
        ∧ Event.schedStep e v₂ ∈ (runMain a₂ nTr₂ nTe₂).events
        ∧ v₁ ≠ v₂ := by
  rintro ⟨a₁, a₂, nTr₁, nTe₁, nTr₂, nTe₂, e, v₁, v₂, h₁, h₂, hne⟩
  exact hne ((schedStep_value_det a₁ nTr₁ nTe₁ e v₁ h₁).trans
    (schedStep_value_det a₂ nTr₂ nTe₂ e v₂ h₂).symm)

/-- Claim C2 (amended): each of dataset choice, model variant, latent
dimension, beta weight, batch size, epoch count, and the
TensorBoard-vs-plot toggle is controlled by its argument — changing just
that argument changes the run's observable behavior — but the
learning-rate schedule is not: every run uses the same rate `lrAfter e`
at epoch `e`, fixed by the hardcoded initial rate 1e-3 and decay 0.98. -/
theorem flags_control_behavior_except_lr :
    (runMain argsMnist 4 4).events
        ≠ (runMain { argsMnist with data := "dsprites" } 4 4).events
    ∧ (runMain argsMnist 4 4).events
        ≠ (runMain { argsMnist with model_name := "beta-VAE" } 4 4).events
    ∧ (runMain argsMnist 4 4).events
        ≠ (runMain { argsMnist with z_dim := 3 } 4 4).events
    ∧ (runMain argsMnist 4 4).events
        ≠ (runMain { argsMnist with beta := 1 } 4 4).events
    ∧ (runMain argsMnist 4 4).events
        ≠ (runMain { argsMnist with batch_size := 4 } 4 4).events
    ∧ savedImages (runMain argsMnist 4 4)
        ≠ savedImages (runMain { argsMnist with epochs := 2 } 4 4)
    ∧ (runMain argsMnist 4 4).events
        ≠ (runMain { argsMnist with tensorboard := true } 4 4).events
    ∧ (∀ (a₁ a₂ : Args) (nTr₁ nTe₁ nTr₂ nTe₂ e : Nat) (v₁ v₂ : ℚ),
        Event.schedStep e v₁ ∈ (runMain a₁ nTr₁ nTe₁).events →
        Event.schedStep e v₂ ∈ (runMain a₂ nTr₂ nTe₂).events → v₁ = v₂) := by
  refine ⟨by decide, by decide, by decide, by decide, by decide, by decide,
    by decide, ?_⟩
  intro a₁ a₂ nTr₁ nTe₁ nTr₂ nTe₂ e v₁ v₂ h₁ h₂
  exact (schedStep_value_det a₁ nTr₁ nTe₁ e v₁ h₁).trans
    (schedStep_value_det a₂ nTr₂ nTe₂ e v₂ h₂).symm

lemma schedStep_mem_successTrace (a : Args) (imgSize nTrain nTest : Nat)
    (hep : 0 < a.epochs) :
    Event.schedStep 1 (lrAfter 1) ∈ successTrace a imgSize nTrain nTest := by
  have h0 : Event.schedStep 1 (lrAfter 1)
      ∈ trainTrace (lrAfter 1) 1 (numBatches nTrain a.batch_size) := by
    simp [trainTrace]
  have h1 : Event.schedStep 1 (lrAfter 1) ∈ epochTrace a nTrain nTest 1 :=
    List.mem_append_left _ (List.mem_append_left _ h0)
  have h2 : Event.schedStep 1 (lrAfter 1)
      ∈ (List.range a.epochs).flatMap (fun i => epochTrace a nTrain nTest (i + 1)) :=
    List.mem_flatMap.mpr ⟨0, List.mem_range.mpr hep, h1⟩
  exact List.mem_append_left _ (List.mem_append_right _ h2)

/-- Witness for the amended C2: the epoch-1 scheduler step of two distinct
concrete invocations carries the same rate. -/
theorem flags_control_behavior_except_lr_witness :
    Event.schedStep 1 (lrAfter 1) ∈ (runMain argsMnist 3 2).events
    ∧ Event.schedStep 1 (lrAfter 1)
        ∈ (runMain { argsMnist with beta := 1 } 5 4).events
    ∧ (lrAfter 1 : ℚ) = lrAfter 1 := by
  have hm₁ : Event.schedStep 1 (lrAfter 1) ∈ (runMain argsMnist 3 2).events := by
    rw [runMain_ok 3 2 (dispatch_mnist (by decide))
      (Or.inr (viewOk_of_le (by decide)))]
    exact schedStep_mem_successTrace argsMnist 28 3 2 (by decide)
  have hm₂ : Event.schedStep 1 (lrAfter 1)
      ∈ (runMain { argsMnist with beta := 1 } 5 4).events := by
    rw [runMain_ok 5 4 (dispatch_mnist (by decide))
      (Or.inr (viewOk_of_le (by decide)))]
    exact schedStep_mem_successTrace { argsMnist with beta := 1 } 28 5 4 (by decide)
  exact ⟨hm₁, hm₂, flags_control_behavior_except_lr.2.2.2.2.2.2.2
    argsMnist { argsMnist with beta := 1 } 3 2 5 4 1 _ _ hm₁ hm₂⟩

end PyVAE
